import Mathlib

/-!
Shallow embedding of the `brainiac` skip-list engine and its file codec
(`src/beetledb/bleh/skiplist.py` and `src/beetledb/bleh/filewriter.py`).

Modelling conventions:
* Python `bytes`/`bytearray` buffers are `List Nat` (each element a byte value).
* Python strings are lists of Unicode code points (`List Nat`); `str.encode("utf-8")`
  and `bytes.decode("utf-8")` are modelled explicitly.
* Python object references are modelled by a heap: an association list from
  numeric node ids to `SkipNode` records.  Object identity equality
  (`replacement.forwards[i] != curr`) becomes id equality.
* `struct.pack("<I", x)` raises for `x < 0` or `x ≥ 2^32`; this is modelled by
  `Option` results.  All decode-side exceptions other than the explicit
  `incompatible_file` raise (`struct.error`, `KeyError`, `IndexError`,
  `UnicodeDecodeError`) are collapsed into a single parse failure.
* `random.randint` draws are passed in as explicit arguments.
-/

/-- Little-endian 4-byte encoding of a natural number below `2^32`
(`struct.pack("<I", n)`). -/
def u32le (n : Nat) : List Nat :=
  [n % 256, n / 256 % 256, n / 65536 % 256, n / 16777216 % 256]

/-- Reading a little-endian u32 from the front of a buffer
(`struct.unpack_from("<I", b, off)`); fails when fewer than 4 bytes remain. -/
def readU32 : List Nat → Option (Nat × List Nat)
  | b0 :: b1 :: b2 :: b3 :: rest =>
      some (b0 + 256 * b1 + 65536 * b2 + 16777216 * b3, rest)
  | _ => none

/-- `struct.pack("<I", x)` on a possibly negative Python int: raises
(`struct.error`) outside `[0, 2^32)`. -/
def pack_u32 (x : Int) : Option (List Nat) :=
  if 0 ≤ x ∧ x < 4294967296 then some (u32le x.toNat) else none

/-- `struct.pack("<I", n)` on a natural number. -/
def pack_u32N (n : Nat) : Option (List Nat) :=
  if n < 4294967296 then some (u32le n) else none

/-- UTF-8 encoding of one code point, as Python `str.encode("utf-8")` produces. -/
def utf8EncodeChar (c : Nat) : List Nat :=
  if c < 128 then [c]
  else if c < 2048 then [192 + c / 64, 128 + c % 64]
  else if c < 65536 then [224 + c / 4096, 128 + c / 64 % 64, 128 + c % 64]
  else [240 + c / 262144, 128 + c / 4096 % 64, 128 + c / 64 % 64, 128 + c % 64]

/-- UTF-8 encoding of a whole string (list of code points). -/
def utf8Encode (s : List Nat) : List Nat :=
  (s.map utf8EncodeChar).flatten

/-- Leading byte is a UTF-8 continuation byte. -/
def isCont (b : Nat) : Bool := 128 ≤ b && b < 192

/-- Strict UTF-8 decoding (Python `bytes.decode("utf-8")`); `none` models
`UnicodeDecodeError` on truncated or malformed input. -/
def utf8Decode : List Nat → Option (List Nat)
  | [] => some []
  | b :: rest =>
    if b < 128 then
      match utf8Decode rest with
      | some s => some (b :: s)
      | none => none
    else if 194 ≤ b && b < 224 then
      match rest with
      | b1 :: r =>
        if isCont b1 then
          match utf8Decode r with
          | some s => some (((b - 192) * 64 + (b1 - 128)) :: s)
          | none => none
        else none
      | [] => none
    else if 224 ≤ b && b < 240 then
      match rest with
      | b1 :: b2 :: r =>
        if (if b = 224 then 160 ≤ b1 && b1 < 192
            else if b = 237 then 128 ≤ b1 && b1 < 160
            else isCont b1) && isCont b2 then
          match utf8Decode r with
          | some s => some (((b - 224) * 4096 + (b1 - 128) * 64 + (b2 - 128)) :: s)
          | none => none
        else none
      | _ => none
    else if 240 ≤ b && b < 245 then
      match rest with
      | b1 :: b2 :: b3 :: r =>
        if (if b = 240 then 144 ≤ b1 && b1 < 192
            else if b = 244 then 128 ≤ b1 && b1 < 144
            else isCont b1) && isCont b2 && isCont b3 then
          match utf8Decode r with
          | some s =>
              some (((b - 240) * 262144 + (b1 - 128) * 4096 +
                (b2 - 128) * 64 + (b3 - 128)) :: s)
          | none => none
        else none
      | _ => none
    else none

/-- The code points of the sentinel key `"head"`. -/
def headName : List Nat := [104, 101, 97, 100]

/-- `SkipNode` from `skiplist.py`: `name`, optional integer `value`,
`level` (the forward-slot capacity, `max_level + 1` at construction),
and the forward slots.  Forward references are heap ids. -/
structure SkipNode where
  name : List Nat
  value : Option Int
  level : Nat
  forwards : List (Option Nat)
deriving Repr, DecidableEq

/-- `SkipNode.__init__(name, value, max_level)`: capacity `max_level + 1`,
all forward slots `None`. -/
def SkipNode.mk' (name : List Nat) (value : Option Int) (maxLevel : Nat) : SkipNode :=
  { name := name, value := value, level := maxLevel + 1
    forwards := List.replicate (maxLevel + 1) none }

/-- `SkipNode.to_bytes`: key length is `len(self.name)` — the number of
characters, not the UTF-8 byte count — then the UTF-8 key bytes, the u32
value (sentinel `0xFFFF` for `None`), and the u32 level.  `Option` models
`struct.error` on out-of-range pack arguments. -/
def SkipNode.to_bytes (n : SkipNode) : Option (List Nat) := do
  let nameEncoded := utf8Encode n.name
  let valueEncoded : Int := match n.value with | none => 65535 | some v => v
  let lenB ← pack_u32N n.name.length
  let valB ← pack_u32 valueEncoded
  let lvlB ← pack_u32N n.level
  pure (lenB ++ nameEncoded ++ valB ++ lvlB)

/-- `SkipNode.from_bytes` on a payload slice: reads the u32 key length,
takes that many bytes (a short buffer yields a short slice, as Python
slicing does), UTF-8-decodes them, then reads the u32 value and level.
The decoded node has capacity `lvl` and all-`None` forwards. -/
def SkipNode.from_bytes (b : List Nat) : Option SkipNode := do
  let (keyLen, r1) ← readU32 b
  let key ← utf8Decode (r1.take keyLen)
  let (value, r2) ← readU32 (r1.drop keyLen)
  let (lvl, _) ← readU32 r2
  pure { name := key
         value := if value = 65535 then none else some (Int.ofNat value)
         level := lvl
         forwards := List.replicate lvl none }

/-- The heap: Python object references become numeric ids into an
association list. -/
abbrev Heap := List (Nat × SkipNode)

/-- Dereference a node id. -/
def getNode (h : Heap) (id : Nat) : Option SkipNode :=
  match h.find? (fun p => p.1 == id) with
  | some p => some p.2
  | none => none

/-- Mutate the node stored at `id` (in-place update of a Python object). -/
def setNode (h : Heap) (id : Nat) (n : SkipNode) : Heap :=
  h.map (fun p => if p.1 = id then (id, n) else p)

/-- `curr.forwards[i]` read through the heap (`none` when the slot is empty). -/
def fwd (h : Heap) (id i : Nat) : Option Nat :=
  match getNode h id with
  | some n => n.forwards.getD i none
  | none => none

/-- `curr.value` read through the heap. -/
def valOf (h : Heap) (id : Nat) : Option Int :=
  match getNode h id with
  | some n => n.value
  | none => none

/-- `SkipList` from `skiplist.py`: `max_level`, the heap of nodes, the head
reference, the current `level` and `size`.  `nextId` is the embedding's
fresh-id supply for node allocation; the unused float field `probab` is not
modelled. -/
structure SkipList where
  max_level : Nat
  nodes : Heap
  headId : Nat
  level : Nat
  size : Nat
  nextId : Nat
deriving Repr, DecidableEq

/-- `SkipList.__init__(max_level, probab)`: a fresh head node at id 0,
`level = 0`, `size = 0`. -/
def SkipList.new (maxLevel : Nat) : SkipList :=
  { max_level := maxLevel
    nodes := [(0, SkipNode.mk' headName none maxLevel)]
    headId := 0, level := 0, size := 0, nextId := 1 }

/-- The inner walk
`while curr and curr.forwards[i] and curr.forwards[i].value < value: curr = curr.forwards[i]`.
The fuel (heap size in all call sites) bounds the traversal; it never runs
out on the acyclic heaps the operations are used on. -/
def walkLevel (h : Heap) (v : Int) (i : Nat) : Nat → Nat → Nat
  | 0, curr => curr
  | fuel + 1, curr =>
    match fwd h curr i with
    | none => curr
    | some nid =>
      match valOf h nid with
      | some w => if w < v then walkLevel h v i fuel nid else curr
      | none => curr

/-- The descending update-recording loop
`for i in range(self.level, -1, -1): ... updates[i] = curr`, carrying `curr`
across levels.  Entry `j` of the result is the update node for level `j`;
the list has length `i + 1`. -/
def updatesDown (h : Heap) (v : Int) (fuel : Nat) : Nat → Nat → List Nat
  | curr, 0 => [walkLevel h v 0 fuel curr]
  | curr, i + 1 =>
    let c := walkLevel h v (i + 1) fuel curr
    updatesDown h v fuel c i ++ [c]

/-- The full `updates` array of length `max_level + 1`: `None` above the
list's current level, the recorded update node at and below it. -/
def mkUpdates (l : SkipList) (v : Int) : List (Option Nat) :=
  let base := updatesDown l.nodes v l.nodes.length l.headId l.level
  (List.range (l.max_level + 1)).map
    (fun j => if j ≤ l.level then some (base.getD j l.headId) else none)

/-- The splice loop of `insert`:
`for lvl in range(new_lvl + 1): node.forwards[lvl] = replacing.forwards[lvl]; replacing.forwards[lvl] = node`,
skipping levels whose update entry is `None` (the `warning` branch). -/
def spliceLoop (updates : List (Option Nat)) (nodeId : Nat) : Heap → Nat → Nat → Heap
  | h, _, 0 => h
  | h, lvl, k + 1 =>
    let h' :=
      match updates.getD lvl none with
      | none => h
      | some rid =>
        match getNode h rid, getNode h nodeId with
        | some rn, some nn =>
          let h1 := setNode h nodeId
            { nn with forwards := nn.forwards.set lvl (rn.forwards.getD lvl none) }
          setNode h1 rid { rn with forwards := rn.forwards.set lvl (some nodeId) }
        | _, _ => h
    spliceLoop updates nodeId h' (lvl + 1) k

/-- `SkipList.insert(key, value)` with the random draw `newLvl` passed in
explicitly (`_random_level`'s outcome). -/
def SkipList.insert (l : SkipList) (key : List Nat) (value : Int) (newLvl : Nat) :
    SkipList :=
  let updates0 := mkUpdates l value
  let updates :=
    if l.level < newLvl then
      (List.range (l.max_level + 1)).map
        (fun j => if l.level < j ∧ j ≤ newLvl then some l.headId else updates0.getD j none)
    else updates0
  let lvl' := if l.level < newLvl then newLvl else l.level
  let nodeId := l.nextId
  let node := SkipNode.mk' key (some value) newLvl
  let h' := spliceLoop updates nodeId (l.nodes ++ [(nodeId, node)]) 0 (newLvl + 1)
  { l with nodes := h', level := lvl', size := l.size + 1, nextId := l.nextId + 1 }

/-- The descending search walk (`for i in range(self.level, -1, -1)` without
update recording); returns the final `curr`. -/
def descend (h : Heap) (v : Int) (fuel : Nat) : Nat → Nat → Nat
  | curr, 0 => walkLevel h v 0 fuel curr
  | curr, i + 1 => descend h v fuel (walkLevel h v (i + 1) fuel curr) i

/-- `SkipList.search(value)`: walk down, step one node forward at level 0,
test equality (`curr is not None and curr.value == value`). -/
def SkipList.search (l : SkipList) (value : Int) : Bool :=
  let c := descend l.nodes value l.nodes.length l.headId l.level
  match fwd l.nodes c 0 with
  | none => false
  | some nid =>
    match valOf l.nodes nid with
    | some w => w == value
    | none => false

/-- Outcome of `SkipList.remove`: an early `return False`, a successful
removal (Python returns `None`), or the `Exception("node_mismatch")` raise. -/
inductive RemoveResult where
  | notFound (l : SkipList)
  | removed (l : SkipList)
  | nodeMismatch
deriving Repr, DecidableEq

/-- The unlink loop of `remove`:
`for i in range(self.max_level, -1, -1)`, skipping `None` update entries,
raising `node_mismatch` when `replacement.forwards[i] != curr` (object
identity), otherwise relinking `replacement.forwards[i] = curr.forwards[i]`. -/
def unlinkLoop (updates : List (Option Nat)) (cid : Nat) : Heap → Nat → Nat → Option Heap
  | h, _, 0 => some h
  | h, i, k + 1 =>
    match updates.getD i none with
    | none => unlinkLoop updates cid h (i - 1) k
    | some rid =>
      match getNode h rid with
      | none => unlinkLoop updates cid h (i - 1) k
      | some rn =>
        if rn.forwards.getD i none = some cid then
          match getNode h cid with
          | none => none
          | some cn =>
            unlinkLoop updates cid
              (setNode h rid { rn with forwards := rn.forwards.set i (cn.forwards.getD i none) })
              (i - 1) k
        else none

/-- The level-shrink loop
`while self.level > 0 and self.head.forwards[self.max_level] is None: self.level -= 1`
(note the source tests slot `max_level`, not the current level). -/
def shrinkLevel (hd : Option SkipNode) (maxLevel : Nat) : Nat → Nat
  | 0 => 0
  | lv + 1 =>
    match hd with
    | none => lv + 1
    | some n =>
      if n.forwards.getD maxLevel none = none then shrinkLevel hd maxLevel lv else lv + 1

/-- `SkipList.remove(value)`. -/
def SkipList.remove (l : SkipList) (value : Int) : RemoveResult :=
  let updates := mkUpdates l value
  let p := (updatesDown l.nodes value l.nodes.length l.headId l.level).getD 0 l.headId
  match fwd l.nodes p 0 with
  | none => .notFound l
  | some cid =>
    match valOf l.nodes cid with
    | some w =>
      if w = value then
        match unlinkLoop updates cid l.nodes l.max_level (l.max_level + 1) with
        | none => .nodeMismatch
        | some h' =>
          let lvl' := shrinkLevel (getNode h' l.headId) l.max_level l.level
          .removed { l with nodes := h', level := lvl', size := l.size - 1 }
      else .notFound l
    | none => .notFound l

/-- `MAGIC_BYTE = b"\xde\xad\xbe\xef"`. -/
def MAGIC : List Nat := [222, 173, 190, 239]

/-- `TYPE_DATA = b"\xbe"`. -/
def TYPE_DATA : Nat := 190

/-- `TYPE_LANE = b"\xef"`. -/
def TYPE_LANE : Nat := 239

/-- `EOF = b"\xee\x0f"`. -/
def EOF_MARKER : List Nat := [238, 15]

/-- Sum of forward-slot counts over the heap, used to bound the BFS fuel. -/
def sumCaps (h : Heap) : Nat :=
  (h.map (fun p => p.2.forwards.length)).sum

/-- The BFS node enumeration of `marshal_to_page`: pop the queue, skip
already-indexed nodes, otherwise append to the visit order and enqueue the
forward references not yet indexed.  The visit order doubles as the dense
index assignment (position = index). -/
def bfsLoop (h : Heap) : Nat → List Nat → List Nat → List Nat
  | 0, _, visited => visited
  | fuel + 1, queue, visited =>
    match queue with
    | [] => visited
    | n :: rest =>
      if n ∈ visited then bfsLoop h fuel rest visited
      else
        let fwds :=
          match getNode h n with
          | some node => (node.forwards.filterMap id).filter (fun f => f ∉ visited ++ [n])
          | none => []
        bfsLoop h fuel (rest ++ fwds) (visited ++ [n])

/-- BFS order of the heap reachable from the head, `head` first. -/
def bfsOrder (l : SkipList) : List Nat :=
  bfsLoop l.nodes (1 + sumCaps l.nodes + l.nodes.length) [l.headId] []

/-- Position of `x` in a list, if present (`dict` index lookup). -/
def posOf (x : Nat) : List Nat → Option Nat
  | [] => none
  | a :: rest => if a = x then some 0 else (posOf x rest).map (· + 1)

/-- Node records, one per BFS-enumerated node in order:
`TYPE_DATA ++ u32 index ++ u32 len(payload) ++ payload`. -/
def encodeNodeRecs (h : Heap) : List (Nat × Nat) → Option (List Nat)
  | [] => some []
  | (idx, id) :: rest => do
    let n ← getNode h id
    let payload ← n.to_bytes
    let idxB ← pack_u32N idx
    let lenB ← pack_u32N payload.length
    let tail ← encodeNodeRecs h rest
    pure (TYPE_DATA :: (idxB ++ lenB ++ payload) ++ tail)

/-- The per-level chain collection of `marshal_to_page`:
`curr = head; while curr and len(curr.forwards) > level: append curr; curr = curr.forwards[level]`.
The collected chain includes the head node. -/
def laneNodes (h : Heap) (lvl : Nat) : Nat → Option Nat → List Nat
  | _, none => []
  | 0, some _ => []
  | fuel + 1, some cid =>
    match getNode h cid with
    | none => []
    | some n =>
      if lvl < n.forwards.length then cid :: laneNodes h lvl fuel (n.forwards.getD lvl none)
      else []

/-- Indices of one lane's chain members (`nodes[node]`; a node missing from
the BFS dict is a `KeyError`). -/
def laneIdxBytes (order : List Nat) : List Nat → Option (List Nat)
  | [] => some []
  | id :: rest => do
    let idx ← posOf id order
    let idxB ← pack_u32N idx
    let tail ← laneIdxBytes order rest
    pure (idxB ++ tail)

/-- Lane records for levels `skplist.level` down to `0`:
`TYPE_LANE ++ u32 level ++ u32 count ++ count × u32 index`. -/
def encodeLaneRecs (l : SkipList) (order : List Nat) : List Nat → Option (List Nat)
  | [] => some []
  | lvl :: rest => do
    let chain := laneNodes l.nodes lvl (l.nodes.length + 1) (some l.headId)
    let lvlB ← pack_u32N lvl
    let cntB ← pack_u32N chain.length
    let idxB ← laneIdxBytes order chain
    let tail ← encodeLaneRecs l order rest
    pure (TYPE_LANE :: (lvlB ++ cntB ++ idxB) ++ tail)

/-- `FileWriter.marshal_to_page`: magic, u32 current level, three reserved
zero bytes, the node records in BFS order, the lane records from the top
level down to 0, and the end marker. -/
def marshal_to_page (l : SkipList) : Option (List Nat) := do
  let lvlB ← pack_u32N l.level
  let order := bfsOrder l
  let nodeB ← encodeNodeRecs l.nodes (order.enum)
  let laneB ← encodeLaneRecs l order ((List.range (l.level + 1)).reverse)
  pure (MAGIC ++ lvlB ++ [0, 0, 0] ++ nodeB ++ laneB ++ EOF_MARKER)

/-- Decode errors.  `formatViolation` mirrors the spec's taxonomy; the
source never raises it.  All struct/key/index/unicode errors inside the
parsing loops are `parseError`. -/
inductive DecodeError where
  | incompatibleFile
  | parseError
  | formatViolation
deriving Repr, DecidableEq

/-- Heap id of the decoder's freshly constructed head node; file node
indices are u32 values, so this id can never collide with them. -/
def FRESH_HEAD : Nat := 4294967296

/-- Store a decoded node under its file index (`nodes[index] = node`,
overwriting a previous entry with the same index). -/
def dictInsert (h : Heap) (idx : Nat) (n : SkipNode) : Heap :=
  if (h.find? (fun p => p.1 == idx)).isSome then setNode h idx n else h ++ [(idx, n)]

/-- The node-record parsing loop of `marshal_from_page`: stop at the end
marker, at a non-`TYPE_DATA` tag or at the end of the buffer; otherwise read
index and payload length, decode the payload slice, store the node, and
install it as the list head when its key is `"head"`. -/
def parseNodes : Nat → List Nat → Heap → Nat → Option (List Nat × Heap × Nat)
  | 0, bytes, dict, hid => some (bytes, dict, hid)
  | fuel + 1, bytes, dict, hid =>
    match bytes with
    | [] => some (bytes, dict, hid)
    | b :: rest =>
      if bytes.take 2 = EOF_MARKER then some (bytes, dict, hid)
      else if b ≠ TYPE_DATA then some (bytes, dict, hid)
      else
        match readU32 rest with
        | none => none
        | some (index, r1) =>
          match readU32 r1 with
          | none => none
          | some (nbytes, r2) =>
            match SkipNode.from_bytes (r2.take nbytes) with
            | none => none
            | some node =>
              parseNodes fuel (r2.drop nbytes) (dictInsert dict index node)
                (if node.name = headName then index else hid)

/-- The inner index loop of one lane record: read `n_forwards` u32 indices;
each non-sentinel index is looked up (`KeyError` on a missing one), linked
as `curr.forwards[level]` (an out-of-range level is an `IndexError`), and
becomes the new `curr`. -/
def parseLaneIdx : Nat → List Nat → Heap → Nat → Nat → Nat → Option (List Nat × Heap)
  | 0, bytes, heap, _, _, _ => some (bytes, heap)
  | k + 1, bytes, heap, lvl, curr, fuel =>
    match readU32 bytes with
    | none => none
    | some (nidx, rest) =>
      if nidx = 65535 then parseLaneIdx k rest heap lvl curr fuel
      else
        match getNode heap nidx with
        | none => none
        | some _ =>
          match getNode heap curr with
          | none => none
          | some cn =>
            if lvl < cn.forwards.length then
              parseLaneIdx k rest
                (setNode heap curr { cn with forwards := cn.forwards.set lvl (some nidx) })
                lvl nidx fuel
            else none

/-- The lane-record parsing loop: stop at the end marker, a non-`TYPE_LANE`
tag or the end of the buffer; otherwise read level and count and run the
index loop starting from the list head. -/
def parseLanes : Nat → List Nat → Heap → Nat → Option (List Nat × Heap)
  | 0, bytes, heap, _ => some (bytes, heap)
  | fuel + 1, bytes, heap, hid =>
    match bytes with
    | [] => some (bytes, heap)
    | b :: rest =>
      if bytes.take 2 = EOF_MARKER then some (bytes, heap)
      else if b ≠ TYPE_LANE then some (bytes, heap)
      else
        match readU32 rest with
        | none => none
        | some (lvl, r1) =>
          match readU32 r1 with
          | none => none
          | some (nf, r2) =>
            match parseLaneIdx nf r2 heap lvl hid 0 with
            | none => none
            | some (r3, heap') => parseLanes fuel r3 heap' hid

/-- `FileWriter.marshal_from_page`: check the magic, read the stored level,
skip the three reserved bytes, build a fresh `SkipList(max_level=5)`, parse
node records then lane records.  No end-marker validation is performed after
the lane records. -/
def marshal_from_page (data : List Nat) : Except DecodeError SkipList :=
  if data.take 4 ≠ MAGIC then .error .incompatibleFile
  else
    match readU32 (data.drop 4) with
    | none => .error .parseError
    | some (lvl, r0) =>
      let rest := r0.drop 3
      let heap0 : Heap := [(FRESH_HEAD, SkipNode.mk' headName none 5)]
      match parseNodes rest.length rest heap0 FRESH_HEAD with
      | none => .error .parseError
      | some (r1, heap1, hid) =>
        match parseLanes r1.length r1 heap1 hid with
        | none => .error .parseError
        | some (_, heap2) =>
          .ok { max_level := 5, nodes := heap2, headId := hid
                level := lvl, size := 0, nextId := 0 }

/-- The forward chain starting after node `x` at level `i` (the ids visited
by repeatedly following slot `i`). -/
def chainFrom (h : Heap) (i : Nat) : Nat → Nat → List Nat
  | 0, _ => []
  | fuel + 1, x =>
    match fwd h x i with
    | none => []
    | some y => y :: chainFrom h i fuel y

/-- Keys and values along the level-`i` forward chain from the head. -/
def chainKV (l : SkipList) (i : Nat) : List (List Nat × Option Int) :=
  (chainFrom l.nodes i l.nodes.length l.headId).map
    (fun id =>
      match getNode l.nodes id with
      | some n => (n.name, n.value)
      | none => ([], none))

/-- One insert operation: key, value, and the level drawn by
`_random_level` for it. -/
structure InsOp where
  key : List Nat
  value : Int
  draw : Nat
deriving Repr, DecidableEq

/-- A list built by a sequence of inserts on a fresh `SkipList(max_level)`. -/
def applyInserts (maxLevel : Nat) (ops : List InsOp) : SkipList :=
  ops.foldl (fun l o => l.insert o.key o.value o.draw) (SkipList.new maxLevel)

/-- The draw ranges of `_random_level`: sizes of even parity draw from
`[0, max_level / 2]`, odd sizes from `[max_level / 2, max_level]`
(`random.randint` bounds are inclusive). -/
def legalDraw (maxLevel size draw : Nat) : Prop :=
  if size % 2 = 0 then draw ≤ maxLevel / 2
  else maxLevel / 2 ≤ draw ∧ draw ≤ maxLevel

/-- Specification-side record of one live node: its heap id, key, value and
forward-slot capacity. -/
structure Entry where
  id : Nat
  key : List Nat
  value : Int
  cap : Nat
deriving Repr, DecidableEq

/-- The entries participating in level `i` (capacity strictly above `i`),
in spine (= value) order. -/
def chainE (spine : List Entry) (i : Nat) : List Entry :=
  spine.filter (fun e => decide (i < e.cap))

/-- Ids of the level-`i` chain. -/
def chainIds (spine : List Entry) (i : Nat) : List Nat :=
  (chainE spine i).map (fun e => e.id)

/-- The element that follows the first occurrence of `x`, if any. -/
def nextIdAfter : List Nat → Nat → Option Nat
  | [], _ => none
  | a :: rest, x => if a = x then rest.head? else nextIdAfter rest x

/-- Sorted insertion of a new entry: before the first entry whose value is
not smaller (the position the splice loop uses). -/
def spineInsert (x : Entry) : List Entry → List Entry
  | [] => [x]
  | e :: rest => if e.value < x.value then e :: spineInsert x rest else x :: e :: rest

/-- Test `node.value < v` through the heap; `False` for a missing node or a
`None` value (the walk stops there). -/
def valLtB (h : Heap) (v : Int) (y : Nat) : Bool :=
  match valOf h y with
  | some w => w < v
  | none => false

/-- The entries of the level-`i` chain strictly below `v`. -/
def predCand (spine : List Entry) (i : Nat) (v : Int) : List Entry :=
  (chainE spine i).takeWhile (fun e => decide (e.value < v))

/-- Id of the level-`i` update node for value `v`: the last chain entry
below `v`, or the head. -/
def spinePredId (spine : List Entry) (i : Nat) (v : Int) (hid : Nat) : Nat :=
  ((predCand spine i v).map (fun e => e.id)).getLastD hid

/-- `c` is the exact forward chain at level `i` starting after node `x`. -/
def IsFwdChain (h : Heap) (i : Nat) : Nat → List Nat → Prop
  | x, [] => fwd h x i = none
  | x, y :: ys => fwd h x i = some y ∧ IsFwdChain h i y ys

/-- The part of the in-memory invariant that the descending walk needs:
sorted distinct live entries whose forward slots realise the per-level
chains, a head realising the chain heads, and enough heap for the fuel. -/
structure WalkState (l : SkipList) (spine : List Entry) : Prop where
  sorted : spine.Pairwise (fun a b => a.value < b.value)
  idsNodup : (spine.map (fun e => e.id)).Nodup
  headNotSpine : ∀ e ∈ spine, e.id ≠ l.headId
  fuelOk : spine.length < l.nodes.length
  headOk : ∃ n, getNode l.nodes l.headId = some n ∧
    (∀ i, n.forwards.getD i none = (chainIds spine i).head?)
  entriesOk : ∀ e ∈ spine, ∃ n, getNode l.nodes e.id = some n ∧
    n.value = some e.value ∧
    (∀ i, n.forwards.getD i none = nextIdAfter (chainIds spine i) e.id)

/-- The full invariant of lists built by inserts with pairwise distinct
values: a `WalkState` plus the bookkeeping insert maintains. -/
structure CleanState (l : SkipList) (spine : List Entry) : Prop where
  walk : WalkState l spine
  idsFresh : ∀ e ∈ spine, e.id < l.nextId
  headFresh : l.headId < l.nextId
  caps : ∀ e ∈ spine, 0 < e.cap ∧ e.cap ≤ l.level + 1
  levelLe : l.level ≤ l.max_level
  levelPop : spine ≠ [] → ∃ e ∈ spine, e.cap = l.level + 1
  levelZero : spine = [] → l.level = 0
  sizeEq : l.size = spine.length
  keysPerm : (l.nodes.map Prod.fst).Perm (l.headId :: spine.map (fun e => e.id))
  headMeta : ∃ n, getNode l.nodes l.headId = some n ∧ n.name = headName ∧
    n.value = none ∧ n.level = l.max_level + 1 ∧
    n.forwards.length = l.max_level + 1
  entryMeta : ∀ e ∈ spine, ∃ n, getNode l.nodes e.id = some n ∧
    n.name = e.key ∧ n.level = e.cap ∧ n.forwards.length = e.cap

/-- The spine an insert sequence produces: the `k`-th insert allocates id
`k + 1` and capacity `draw + 1`, placed in value order. -/
def spineOfOps (ops : List InsOp) : List Entry :=
  (ops.enum.map (fun p => Entry.mk (p.1 + 1) p.2.key p.2.value (p.2.draw + 1))).foldl
    (fun s x => spineInsert x s) []

/-- Extract the list from a successful removal. -/
def removedList (r : RemoveResult) : Option SkipList :=
  match r with
  | .removed l => some l
  | _ => none

/-- Run a removal and keep the list only when the removal succeeded. -/
def applyRem (l : SkipList) (v : Int) : Option SkipList :=
  removedList (l.remove v)

/-- Encode a list, decode the result, and return the decoded level-`i`
key/value chain (`none` when either direction fails). -/
def roundtripKV (l : SkipList) (i : Nat) : Option (List (List Nat × Option Int)) :=
  match marshal_to_page l with
  | none => none
  | some buf =>
    match marshal_from_page buf with
    | .ok l' => some (chainKV l' i)
    | .error _ => none

-- ===================== theorems =====================

/-- C9: decoding any buffer whose first 4 bytes differ from the magic
constant `DE AD BE EF` (including buffers shorter than 4 bytes) fails with
`IncompatibleFile`; the magic test is the first thing the decoder does, so
no node record is parsed and no node is stored. -/
theorem c9_magic_rejection (data : List Nat) (h : data.take 4 ≠ MAGIC) :
    marshal_from_page data = .error .incompatibleFile := by
  unfold marshal_from_page
  rw [if_pos h]

/-- Witness for C9 at the empty buffer. -/
theorem c9_magic_rejection_witness :
    ([] : List Nat).take 4 ≠ MAGIC ∧
    marshal_from_page [] = .error .incompatibleFile :=
  ⟨by decide, c9_magic_rejection [] (by decide)⟩

/-- C10: every successfully decoded list has `max_level = 5` and `size = 0`,
whatever buffer was decoded — the decoder hardcodes
`SkipList(max_level=5, probab=0.25)` and never sets `size`. -/
theorem c10_decode_fixed_meta (data : List Nat) (l : SkipList)
    (h : marshal_from_page data = .ok l) : l.max_level = 5 ∧ l.size = 0 := by
  unfold marshal_from_page at h
  split at h
  · cases h
  · split at h
    · cases h
    · dsimp only at h
      split at h
      · cases h
      · split at h
        · cases h
        · cases h; exact ⟨rfl, rfl⟩

/-- Witness for C10 on a minimal decodable buffer. -/
theorem c10_decode_fixed_meta_witness :
    ∃ l, marshal_from_page (MAGIC ++ u32le 0 ++ [0, 0, 0]) = .ok l ∧
      l.max_level = 5 ∧ l.size = 0 := by
  have hOk : (marshal_from_page (MAGIC ++ u32le 0 ++ [0, 0, 0])).isOk = true := by decide
  cases hh : marshal_from_page (MAGIC ++ u32le 0 ++ [0, 0, 0]) with
  | error e => rw [hh] at hOk; cases hOk
  | ok l => exact ⟨l, rfl, c10_decode_fixed_meta _ _ hh⟩

/-- C8 (counterexample): a buffer with a valid magic and header whose final
two bytes are not the end marker `EE 0F` still decodes successfully — the
decoder returns a list instead of failing with `FormatViolation`, refuting
the claimed end-marker check. -/
theorem c8_end_marker_counterexample :
    (marshal_from_page (MAGIC ++ u32le 0 ++ [0, 0, 0])).isOk = true ∧
    (MAGIC ++ u32le 0 ++ [0, 0, 0]).drop
      ((MAGIC ++ u32le 0 ++ [0, 0, 0]).length - 2) ≠ EOF_MARKER := by decide

/-- C8 (amended): the decoder performs no end-marker validation at all — it
stops consuming at the end marker or at the end of the buffer, and no decode
ever fails with `FormatViolation`. -/
theorem c8_no_format_violation (data : List Nat) :
    marshal_from_page data ≠ .error .formatViolation := by
  unfold marshal_from_page
  split
  · simp
  · split
    · simp
    · dsimp only
      split
      · simp
      · split
        · simp
        · simp

/-- C3: the claim says a removal of a present value never raises
`NodeMismatch`; in the source, removing a node that participates in fewer
levels than `currentLevel` always does.  Here `10` is present
(`search 10 = true`) after two valid inserts with legal draws (sizes 0 and 1
give ranges `[0,2]` and `[2,5]`; the draws are 0 and 2), yet `remove 10`
raises `node_mismatch`. -/
theorem c3_remove_mismatch_eval :
    ((((SkipList.new 5).insert [97] 10 0).insert [98] 20 2).search 10 = true) ∧
    (((SkipList.new 5).insert [97] 10 0).insert [98] 20 2).remove 10 =
      .nodeMismatch := by decide

/-- C4: the shrink loop tests `head.forwards[max_level]` instead of the
topmost level, so after removing `20` from a list whose nodes `a`(10) and
`b`(20) both reach level 2, `currentLevel` collapses to 0 even though node
`a` (id 1, value 10) is still linked at level 2 from the head. -/
theorem c4_level_shrink_eval :
    ((applyRem (((SkipList.new 5).insert [97] 10 2).insert [98] 20 2) 20).map
      (fun l => (l.level, fwd l.nodes l.headId 2, valOf l.nodes 1))) =
      some (0, some 1, some 10) := by decide

/-- C7: `to_bytes` packs `len(self.name)` — the character count — as the
key-length field, not the UTF-8 byte count.  For the one-character key `"é"`
(code point 233) the field says 1 while the UTF-8 encoding is 2 bytes, and
`from_bytes` on the produced payload fails (it slices 1 byte of a 2-byte
sequence), refuting both halves of the claim. -/
theorem c7_keylen_eval :
    (SkipNode.mk' [233] (some 5) 0).to_bytes =
      some [1, 0, 0, 0, 195, 169, 5, 0, 0, 0, 1, 0, 0, 0] ∧
    utf8Encode [233] = [195, 169] ∧
    SkipNode.from_bytes [1, 0, 0, 0, 195, 169, 5, 0, 0, 0, 1, 0, 0, 0] = none := by
  decide

/-- C1 (counterexample): inserting the single pair `("a", 0xFFFF)` (a legal
draw of 0) and round-tripping loses the value: the decoder maps the stored
`0xFFFF` back to "no value", so the decoded level-0 chain is
`[("a", None)]` instead of `[("a", 65535)]`. -/
theorem c1_roundtrip_counterexample :
    roundtripKV ((SkipList.new 5).insert [97] 65535 0) 0 = some [([97], none)] ∧
    chainKV ((SkipList.new 5).insert [97] 65535 0) 0 = [([97], some 65535)] := by
  decide

/-- C2 (counterexample): with duplicate values — insert `("a",10)` (draw 0)
then `("b",10)` (draw 2, legal for odd size) — `remove 10` succeeds (size
drops from 2 to 1) yet `search 10` still returns true afterwards, refuting
"after `remove(v)` succeeds, `search(v)` returns false". -/
theorem c2_remove_counterexample :
    (applyRem (((SkipList.new 5).insert [97] 10 0).insert [98] 10 2) 10).map
      (fun l => (l.search 10, l.size)) = some (true, 1) := by decide

/-- C5 (counterexample): after the legal-draw sequence
insert (97,10,draw 2), insert (98,20,draw 2), remove 20, remove 10,
insert (99,5,draw 0), insert (100,30,draw 2), insert (102,40,draw 0),
the level-0 chain holds only values 5 and 30 while three nodes are currently
inserted — node (102,40), never removed, hangs off a dead node and is
missing from the chain, refuting "the level-0 chain contains every currently
inserted node exactly once". -/
theorem c5_order_counterexample :
    ((applyRem (((SkipList.new 5).insert [97] 10 2).insert [98] 20 2) 20).bind
      (fun l => applyRem l 10)).map
      (fun l =>
        (chainKV (((l.insert [99] 5 0).insert [100] 30 2).insert [102] 40 0) 0,
         (((l.insert [99] 5 0).insert [100] 30 2).insert [102] 40 0).size)) =
      some ([([99], some 5), ([100], some 30)], 3) := by decide

/-- C6 (counterexample): extending the C5 sequence with `remove 30` yields a
list in which value 40 was inserted (legal draws throughout) and never
removed, yet `search 40` returns false, refuting "every value inserted and
not subsequently removed satisfies `search(value) = true`". -/
theorem c6_search_counterexample :
    (((applyRem (((SkipList.new 5).insert [97] 10 2).insert [98] 20 2) 20).bind
      (fun l => applyRem l 10)).bind
      (fun l =>
        applyRem (((l.insert [99] 5 0).insert [100] 30 2).insert [102] 40 0) 30)).map
      (fun l => l.search 40) = some false := by decide
